/-
Verification of the genologics client library (entities.py, lims.py).

The development shallowly embeds the lazy entity/descriptor mapping layer:
XML trees, the UDF dictionary, the entity identity map and lazy loader,
the batch loader, and the paged listing loop.  Mutable Python state is
passed explicitly: the per-session identity map and object heap form a
`LimsState`, and XML-tree mutation is modelled by returning updated trees.
Reference equality of Python objects is modelled by indices into the heap.
Python exceptions are modelled by the `PyError` type; operations that can
raise return the error alongside the state reached when the exception was
thrown (Python leaves earlier mutations in place when it raises).
-/
import Mathlib

/-! ## Generic list helpers (Python dict / list primitives) -/

/-- Update the element at position `i` of a list (no-op when out of range).
Models in-place mutation of one slot of a Python list / object heap. -/
def listModify {α : Type} (l : List α) (i : Nat) (f : α → α) : List α :=
  match l, i with
  | [], _ => []
  | x :: xs, 0 => f x :: xs
  | x :: xs, Nat.succ n => x :: listModify xs n f

/-- Lookup in an association list; models Python `dict.__getitem__` /
`dict.get`. -/
def assocGet {α β : Type} [DecidableEq α] (l : List (α × β)) (k : α) : Option β :=
  match l with
  | [] => none
  | (k', v) :: rest => if k' = k then some v else assocGet rest k

/-- Insert-or-overwrite in an association list; models Python
`dict.__setitem__`. -/
def assocSet {α β : Type} [DecidableEq α] (l : List (α × β)) (k : α) (v : β) :
    List (α × β) :=
  match l with
  | [] => [(k, v)]
  | (k', v') :: rest =>
    if k' = k then (k, v) :: rest else (k', v') :: assocSet rest k v

/-- Remove a key from an association list; models Python `dict.__delitem__`
(for a key known to be present). -/
def assocErase {α β : Type} [DecidableEq α] (l : List (α × β)) (k : α) :
    List (α × β) :=
  match l with
  | [] => []
  | (k', v') :: rest =>
    if k' = k then rest else (k', v') :: assocErase rest k

theorem listModify_length {α : Type} (l : List α) (i : Nat) (f : α → α) :
    (listModify l i f).length = l.length := by
  induction l generalizing i with
  | nil => rfl
  | cons x xs ih =>
    cases i with
    | zero => rfl
    | succ n => simpa [listModify] using ih n

theorem listModify_get_self {α : Type} (l : List α) (i : Nat) (f : α → α) :
    (listModify l i f)[i]? = (l[i]?).map f := by
  induction l generalizing i with
  | nil => cases i <;> rfl
  | cons x xs ih =>
    cases i with
    | zero => simp [listModify]
    | succ n => simpa [listModify] using ih n

theorem listModify_get_ne {α : Type} (l : List α) (i j : Nat) (f : α → α)
    (h : j ≠ i) : (listModify l i f)[j]? = l[j]? := by
  induction l generalizing i j with
  | nil => rfl
  | cons x xs ih =>
    cases i with
    | zero =>
      cases j with
      | zero => exact absurd rfl h
      | succ m => simp [listModify]
    | succ n =>
      cases j with
      | zero => simp [listModify]
      | succ m =>
        simpa [listModify] using ih n m (fun he => h (by simpa using he))

theorem assocGet_set_self {α β : Type} [DecidableEq α]
    (l : List (α × β)) (k : α) (v : β) : assocGet (assocSet l k v) k = some v := by
  induction l with
  | nil => simp [assocSet, assocGet]
  | cons p rest ih =>
    by_cases h : p.1 = k
    · simp [assocSet, assocGet, h]
    · simp [assocSet, assocGet, h, ih]

theorem get_concat_length {α : Type} (l : List α) (a : α) :
    (l ++ [a])[l.length]? = some a := by
  induction l with
  | nil => rfl
  | cons x xs ih => simp [ih]

/-! ## XML trees (xml.etree.ElementTree model)

An element has a tag, an attribute dictionary, optional text and a list of
children.  Only one-level operations are needed (`find`, `findall`,
`getchildren`, attribute access, text update, `SubElement`). -/

inductive XTree : Type where
  | mk (tag : String) (attribs : List (String × String)) (text : Option String)
       (children : List XTree)

def XTree.tag : XTree → String
  | .mk t _ _ _ => t

def XTree.attribs : XTree → List (String × String)
  | .mk _ a _ _ => a

def XTree.text : XTree → Option String
  | .mk _ _ x _ => x

def XTree.children : XTree → List XTree
  | .mk _ _ _ c => c

/-- `elem.attrib.get(k)` / guarded `elem.attrib[k]`. -/
def XTree.getAttr (t : XTree) (k : String) : Option String :=
  assocGet t.attribs k

/-- `elem.find(tag)`: first direct child with the given tag. -/
def XTree.find (t : XTree) (tg : String) : Option XTree :=
  t.children.find? (fun c => c.tag == tg)

/-- `elem.findall(tag)`: all direct children with the given tag, in
document order. -/
def XTree.findall (t : XTree) (tg : String) : List XTree :=
  t.children.filter (fun c => c.tag == tg)

/-- Replace the text of an element (`elem.text = value`). -/
def XTree.withText : XTree → Option String → XTree
  | .mk t a _ c, x => .mk t a x c

/-- Replace the child list of an element. -/
def XTree.withChildren : XTree → List XTree → XTree
  | .mk t a x _, c => .mk t a x c

/-! ## Character-level string utilities

The Python code uses `split`, `lower`, `int()`, `float()`, `str()` and
`strptime` on short ASCII strings.  These are modelled over `String.data`
(lists of characters) so that all definitions evaluate inside the kernel. -/

/-- `s.split(sep)` for a one-character separator. -/
def splitOnChar (sep : Char) : List Char → List (List Char)
  | [] => [[]]
  | c :: rest =>
    let r := splitOnChar sep rest
    if c = sep then [] :: r
    else
      match r with
      | [] => [[c]]
      | h :: t => (c :: h) :: t

/-- ASCII lower-casing, as `str.lower()` does on the tag strings here. -/
def lowerChar (c : Char) : Char :=
  if 'A' ≤ c ∧ c ≤ 'Z' then Char.ofNat (c.toNat + 32) else c

def pyLower (s : String) : String := ⟨s.data.map lowerChar⟩

def digitChar (n : Nat) : Char := Char.ofNat (48 + n)

/-- Decimal digits of a natural number (`fuel` bounds the recursion and is
always supplied as `n + 1`). -/
def natDigitsAux : Nat → Nat → List Char
  | 0, _ => []
  | Nat.succ fuel, n =>
    if n < 10 then [digitChar n]
    else natDigitsAux fuel (n / 10) ++ [digitChar (n % 10)]

def natToStr (n : Nat) : String := ⟨natDigitsAux (n + 1) n⟩

def intToStr (n : Int) : String :=
  match n with
  | .ofNat m => natToStr m
  | .negSucc m => ⟨'-' :: (natToStr (m + 1)).data⟩

/-- Parse a list of decimal digits (`none` on empty input or a
non-digit). -/
def digitsToNat : List Char → Option Nat
  | [] => none
  | l => go l 0
where
  go : List Char → Nat → Option Nat
    | [], acc => some acc
    | c :: rest, acc =>
      if c.isDigit then go rest (acc * 10 + (c.toNat - 48)) else none

/-! ## Namespace resolution (`nsmap`) -/

/-- The `_NSMAP` prefix table of entities.py. -/
def NSMAP : List (String × String) :=
  [("artgr", "http://genologics.com/ri/artifactgroup"),
   ("art", "http://genologics.com/ri/artifact"),
   ("cnf", "http://genologics.com/ri/configuration"),
   ("con", "http://genologics.com/ri/container"),
   ("ctp", "http://genologics.com/ri/containertype"),
   ("exc", "http://genologics.com/ri/exception"),
   ("file", "http://genologics.com/ri/file"),
   ("lab", "http://genologics.com/ri/lab"),
   ("perm", "http://genologics.com/ri/permissions"),
   ("prc", "http://genologics.com/ri/process"),
   ("prj", "http://genologics.com/ri/project"),
   ("prop", "http://genologics.com/ri/property"),
   ("prx", "http://genologics.com/ri/processexecution"),
   ("ptp", "http://genologics.com/ri/processtype"),
   ("res", "http://genologics.com/ri/researcher"),
   ("rgt", "http://genologics.com/ri/reagent"),
   ("ri", "http://genologics.com/ri"),
   ("rtp", "http://genologics.com/ri/reagenttype"),
   ("smp", "http://genologics.com/ri/sample"),
   ("udf", "http://genologics.com/ri/userdefined"),
   ("ver", "http://genologics.com/ri/version")]

/-- `nsmap(tag)`: convert `prefix:local` into the ElementTree
namespaced-tag form.  Returns `none` when the tag has no (single)
namespace specifier or the prefix is unknown. -/
def nsmap (tag : String) : Option String :=
  match splitOnChar ':' tag.data with
  | [p, localPart] =>
    (assocGet NSMAP (⟨p⟩ : String)).map
      (fun u => "\x7b" ++ u ++ "\x7d" ++ (⟨localPart⟩ : String))
  | _ => none

/-- `nsmap('udf:field')`. -/
def udfFieldTag : String := (nsmap "udf:field").getD ""

/-- `nsmap('udf:type')`. -/
def udfTypeTag : String := (nsmap "udf:type").getD ""

theorem udfFieldTag_eq :
    udfFieldTag = "\x7bhttp://genologics.com/ri/userdefined\x7dfield" := by
  decide

/-! ## Python values and exceptions -/

/-- Runtime values that flow through the UDF dictionary.  `float` is kept
as its literal representation (no arithmetic is performed on floats
anywhere in the code under study).  `str` covers both Python 2 `str` and
`unicode`; `date` is a `datetime.date`. -/
inductive PyVal : Type where
  | none
  | str (s : String)
  | int (n : Int)
  | float (lit : String)
  | bool (b : Bool)
  | date (y m d : Nat)
deriving DecidableEq, Repr

/-- Python exceptions raised by the code under study. -/
inductive PyError : Type where
  | typeError (msg : String)
  | keyError
  | attributeError (msg : String)
  | valueError
  | notImplementedError (msg : String)
deriving DecidableEq, Repr

/-- Zero-padded components as produced by `str(datetime.date(...))`. -/
def pad2 (n : Nat) : String := if n < 10 then "0" ++ natToStr n else natToStr n

def pad4 (n : Nat) : String :=
  if n < 10 then "000" ++ natToStr n
  else if n < 100 then "00" ++ natToStr n
  else if n < 1000 then "0" ++ natToStr n
  else natToStr n

/-- Python `str(value)` for the values that reach it in
`UdfDictionary.__setitem__` (int, float, bool, date). -/
def pyStr : PyVal → String
  | .none => "None"
  | .str s => s
  | .int n => intToStr n
  | .float lit => lit
  | .bool b => if b then "True" else "False"
  | .date y m d => pad4 y ++ "-" ++ pad2 m ++ "-" ++ pad2 d

/-- Python `int(s)` on a string (strict integer literal). -/
def pyParseInt (s : String) : Option Int :=
  match s.data with
  | '-' :: rest => (digitsToNat rest).map (fun n => -(n : Int))
  | l => (digitsToNat l).map Int.ofNat

/-- Whether `s` is accepted by Python `float(s)`; modelled as an optional
sign followed by digits with at most one decimal point. -/
def isFloatLit (s : String) : Bool :=
  let body := match s.data with
    | '-' :: rest => rest
    | l => l
  match splitOnChar '.' body with
  | [a] => !a.isEmpty && a.all Char.isDigit
  | [a, b] =>
    (!a.isEmpty || !b.isEmpty) && a.all Char.isDigit && b.all Char.isDigit
  | _ => false

/-- `time.strptime(value, "%Y-%m-%d")` (valid calendar-ish dates only). -/
def parseDate (s : String) : Option (Nat × Nat × Nat) :=
  match splitOnChar '-' s.data with
  | [ys, ms, ds] =>
    match digitsToNat ys, digitsToNat ms, digitsToNat ds with
    | some y, some m, some d =>
      if 1 ≤ m && m ≤ 12 && 1 ≤ d && d ≤ 31 then some (y, m, d) else none
    | _, _, _ => none
  | _ => none

/-! ## UdfDictionary (entities.py lines 160-291)

Operations that can raise return `state × Option PyError`: on an error the
returned state is the state at the moment the exception was thrown, since
Python leaves earlier in-place mutations visible.  `_elems` is represented
by the positions of the field elements inside their parent (the tree root,
or in UDT mode the `udf:type` grouping element). -/

/-- The parent element under which UDF field elements live. -/
def udfParent (root : XTree) (udtMode : Bool) : Option XTree :=
  if udtMode then root.find udfTypeTag else some root

/-- The field element at position `i` of the parent's child list. -/
def elemAt (root : XTree) (udtMode : Bool) (i : Nat) : Option XTree :=
  (udfParent root udtMode).bind (fun p => p.children[i]?)

/-- `_update_elems`: positions of the children tagged `udf:field`. -/
def updateElemsIdx (root : XTree) (udtMode : Bool) : List Nat :=
  match udfParent root udtMode with
  | Option.none => []
  | some p =>
    (p.children.enum.filter (fun pr => pr.2.tag == udfFieldTag)).map
      (fun pr => pr.1)

/-- The decoding rule of `_prepare_lookup`: empty/absent text is `None`;
`numeric` text parses as int, else float; `boolean` compares to
`'true'`; `date` parses `YYYY-MM-DD`; any other tag keeps the raw text. -/
def decodeUdf (ty : String) (txt : Option String) : Except PyError PyVal :=
  let tyl := pyLower ty
  match txt with
  | Option.none => .ok .none
  | some v =>
    if v = "" then .ok .none
    else if tyl = "numeric" then
      match pyParseInt v with
      | some n => .ok (.int n)
      | Option.none => if isFloatLit v then .ok (.float v) else .error .valueError
    else if tyl = "boolean" then .ok (.bool (v == "true"))
    else if tyl = "date" then
      match parseDate v with
      | some (y, m, d) => .ok (.date y m d)
      | Option.none => .error .valueError
    else .ok (.str v)

/-- `_prepare_lookup`: decode every field element into the value cache
(a later element with the same name overwrites an earlier one). -/
def prepareLookup (root : XTree) (udtMode : Bool) :
    List Nat → List (String × PyVal) → Except PyError (List (String × PyVal))
  | [], acc => .ok acc
  | i :: rest, acc =>
    match elemAt root udtMode i with
    | Option.none => prepareLookup root udtMode rest acc
    | some elem =>
      match elem.getAttr "type" with
      | Option.none => .error .keyError
      | some ty =>
        match decodeUdf ty elem.text with
        | .error e => .error e
        | .ok v =>
          match elem.getAttr "name" with
          | Option.none => .error .keyError
          | some nm => prepareLookup root udtMode rest (assocSet acc nm v)

structure UdfDictionary where
  root : XTree
  udtMode : Bool
  elems : List Nat
  lookup : List (String × PyVal)

/-- `UdfDictionary.__init__`: scan the tree (`_update_elems`) and build the
decoded cache (`_prepare_lookup`).  In UDT mode `_update_elems` also reads
the group element's `name` attribute. -/
def mkUdfDictionary (root : XTree) (udtMode : Bool) : Except PyError UdfDictionary :=
  let nameOk : Except PyError Unit :=
    if udtMode then
      match root.find udfTypeTag with
      | some p => if (p.getAttr "name").isSome then .ok () else .error .keyError
      | Option.none => .ok ()
    else .ok ()
  match nameOk with
  | .error e => .error e
  | .ok _ =>
    let elems := updateElemsIdx root udtMode
    match prepareLookup root udtMode elems [] with
    | .error e => .error e
    | .ok lk => .ok ⟨root, udtMode, elems, lk⟩

/-- The search loop of `__setitem__`/`__delitem__`: first tracked element
whose `name` attribute equals the key (reading a missing `name` attribute
raises a KeyError). -/
def findNamedElem (root : XTree) (udtMode : Bool) (key : String) :
    List Nat → Except PyError (Option (Nat × XTree))
  | [] => .ok Option.none
  | i :: rest =>
    match elemAt root udtMode i with
    | Option.none => findNamedElem root udtMode key rest
    | some node =>
      match node.getAttr "name" with
      | Option.none => .error .keyError
      | some nm =>
        if nm = key then .ok (some (i, node))
        else findNamedElem root udtMode key rest

/-- The re-encoding chain of `__setitem__` for an element with stored type
tag `ty`, ending in the `unicode(value, 'UTF-8')` coercion.  A `None`
value skips the tag branches (`if value is None: pass`) and fails at the
coercion.  In the `numeric` branch `isinstance(value, (int, float))`
also accepts booleans, because Python `bool` is an `int` subtype. -/
def encodeExisting (ty : String) (v : PyVal) : Except PyError String :=
  match v with
  | .none => .error (.typeError "coercing to Unicode: need string or buffer")
  | _ =>
    let tyl := pyLower ty
    if tyl = "string" then
      match v with
      | .str s => .ok s
      | _ => .error (.typeError "String UDF requires str or unicode value")
    else if tyl = "text" then
      match v with
      | .str s => .ok s
      | _ => .error (.typeError "Text UDF requires str or unicode value")
    else if tyl = "numeric" then
      match v with
      | .int _ | .float _ | .bool _ => .ok (pyStr v)
      | _ => .error (.typeError "Numeric UDF requires int or float value")
    else if tyl = "boolean" then
      match v with
      | .bool b => .ok (if b then "True" else "False")
      | _ => .error (.typeError "Boolean UDF requires bool value")
    else if tyl = "date" then
      match v with
      | .date y m d => .ok (pad4 y ++ "-" ++ pad2 m ++ "-" ++ pad2 d)
      | _ => .error (.typeError "Date UDF requires datetime.date value")
    else .error (.typeError "NotImplementedType object is not callable")

/-- Update the text of the field element at position `i` under the UDF
parent (`node.text = value`). -/
def setChildText (root : XTree) (udtMode : Bool) (i : Nat) (txt : String) : XTree :=
  if udtMode then
    match root.children.findIdx? (fun c => c.tag == udfTypeTag) with
    | Option.none => root
    | some j =>
      root.withChildren (listModify root.children j
        (fun p => p.withChildren
          (listModify p.children i (fun c => c.withText (some txt)))))
  else
    root.withChildren (listModify root.children i
      (fun c => c.withText (some txt)))

/-- The type-inference heuristics of the `__setitem__` creation path.  The
`isinstance(value, (int, float))` branch is tested before the
`isinstance(value, bool)` branch and bool is an int subtype, so booleans
are tagged `Numeric` (the `Boolean` creation branch is unreachable). -/
def inferNewType (v : PyVal) : Except PyError String :=
  match v with
  | .str s => .ok (if s.data.contains '\n' then "Text" else "String")
  | .int _ => .ok "Numeric"
  | .float _ => .ok "Numeric"
  | .bool _ => .ok "Numeric"
  | .date _ _ _ => .ok "Date"
  | .none => .error (.notImplementedError "Cannot handle value of this type for UDF")

/-- `UdfDictionary.__setitem__`.  The decoded cache is updated first
(line 221), before any validation.  If a tracked element matches the key,
the value is re-encoded against that element's stored type tag and the
element text updated.  Otherwise the creation path infers a type tag and
then evaluates `self._instance`, but the attribute set by `__init__` is
`self.instance`: an AttributeError is raised before any element is
created. -/
def UdfDictionary.setitem (d : UdfDictionary) (key : String) (value : PyVal) :
    UdfDictionary × Option PyError :=
  let d := { d with lookup := assocSet d.lookup key value }
  match findNamedElem d.root d.udtMode key d.elems with
  | .error e => (d, some e)
  | .ok (some (i, node)) =>
    match node.getAttr "type" with
    | Option.none => (d, some .keyError)
    | some ty =>
      match encodeExisting ty value with
      | .error e => (d, some e)
      | .ok txt =>
        ({ d with root := setChildText d.root d.udtMode i txt }, Option.none)
  | .ok Option.none =>
    match inferNewType value with
    | .error e => (d, some e)
    | .ok _ty =>
      (d, some (.attributeError "UdfDictionary object has no attribute _instance"))

/-- `UdfDictionary.__getitem__`: the decoded cache, KeyError when unseen. -/
def UdfDictionary.getitem (d : UdfDictionary) (key : String) : Except PyError PyVal :=
  match assocGet d.lookup key with
  | some v => .ok v
  | Option.none => .error .keyError

/-- `UdfDictionary.__delitem__`: `del self._lookup[key]` raises a KeyError
for an unseen key before anything is mutated.  For a seen key the cache
entry is removed, then the removal loop evaluates `self._instance` (the
attribute is `self.instance`): an AttributeError is raised and the element
stays in the tree. -/
def UdfDictionary.delitem (d : UdfDictionary) (key : String) :
    UdfDictionary × Option PyError :=
  match assocGet d.lookup key with
  | Option.none => (d, some .keyError)
  | some _ =>
    let d := { d with lookup := assocErase d.lookup key }
    match findNamedElem d.root d.udtMode key d.elems with
    | .error e => (d, some e)
    | .ok (some _) =>
      (d, some (.attributeError "UdfDictionary object has no attribute _instance"))
    | .ok Option.none => (d, Option.none)

/-! ## Session state and entities (entities.py lines 435-485, lims.py)

`store` is the object heap (one slot per live entity handle; reference
equality of Python objects is equality of heap indices), `cache` is the
session's identity map `lims.cache` from uri to handle, and `server`
stands for the transport collaborator: `server uri` is the parsed document
a GET of `uri` returns.  `fetchCount`/`postCount` count the GET/POST round
trips issued. -/

structure EntityObj where
  uri : String
  root : Option XTree

structure LimsState where
  cache : List (String × Nat)
  store : List EntityObj
  server : String → XTree
  fetchCount : Nat
  postCount : Nat

/-- The backing tree of the handle at heap index `i`. -/
def rootOf (s : LimsState) (i : Nat) : Option XTree :=
  (s.store[i]?).bind (fun e => e.root)

/-- `instance.root = node` (used by the batch loader). -/
def setRootAt (s : LimsState) (i : Nat) (t : XTree) : LimsState :=
  { s with store := listModify s.store i (fun e => { e with root := some t }) }

/-- `Entity.__new__` followed by `Entity.__init__` for a resolved uri:
`__new__` returns the cached handle when the identity map has one (and
`__init__` is then a no-op thanks to its `hasattr(self, 'lims')` guard);
otherwise a fresh handle with `root = None` is allocated and registered. -/
def entityConstruct (s : LimsState) (uri : String) : Nat × LimsState :=
  match assocGet s.cache uri with
  | some i => (i, s)
  | Option.none =>
    (s.store.length,
     { s with cache := assocSet s.cache uri s.store.length,
              store := s.store ++ [⟨uri, Option.none⟩] })

/-- `Entity.get(force)`: no-op when the backing tree is set and `force` is
not requested, else a GET through the transport replaces `root`
wholesale. -/
def entityGet (s : LimsState) (i : Nat) (force : Bool) : LimsState :=
  match s.store[i]? with
  | Option.none => s
  | some e =>
    if !force && e.root.isSome then s
    else
      { s with
          store := listModify s.store i
            (fun e' => { e' with root := some (s.server e'.uri) }),
          fetchCount := s.fetchCount + 1 }

/-! ## Scalar descriptors (entities.py lines 67-157) -/

/-- `TagDescriptor.get_node`: the element at `tag`, or the tree root when
the tag is `None` or empty (Python truthiness of `self.tag`). -/
def getNode (r : XTree) (tag : Option String) : Option XTree :=
  match tag with
  | some t => if t ≠ "" then r.find t else some r
  | Option.none => some r

/-- `StringDescriptor.__get__`: triggers the lazy fetch, then returns the
element text, or `None` when the element is absent (an element present
with no text also reads as `None`). -/
def stringDescGet (s : LimsState) (i : Nat) (tag : Option String) :
    Option String × LimsState :=
  let s₁ := entityGet s i false
  match rootOf s₁ i with
  | Option.none => (Option.none, s₁)
  | some r =>
    match getNode r tag with
    | Option.none => (Option.none, s₁)
    | some n => (n.text, s₁)

/-- `StringDescriptor.__set__`: does not trigger a fetch; fails with an
AttributeError when the target element is absent, else replaces the
element text. -/
def stringDescSet (s : LimsState) (i : Nat) (tag : Option String) (v : String) :
    LimsState × Option PyError :=
  match s.store[i]? with
  | Option.none => (s, some (.attributeError "invalid handle"))
  | some e =>
    match e.root with
    | Option.none =>
      (s, some (.attributeError "NoneType object has no attribute find"))
    | some r =>
      match getNode r tag with
      | Option.none => (s, some (.attributeError "no element to set"))
      | some _ =>
        let r' :=
          match tag with
          | some t =>
            if t ≠ "" then
              match r.children.findIdx? (fun c => c.tag == t) with
              | some j =>
                r.withChildren (listModify r.children j
                  (fun c => c.withText (some v)))
              | Option.none => r
            else r.withText (some v)
          | Option.none => r.withText (some v)
        let st' := listModify s.store i (fun e' => { e' with root := some r' })
        ({ s with store := st' }, Option.none)

/-- `IntegerDescriptor.__get__`: absent element reads as `None`; present
text is parsed by `int()`. -/
def integerDescGet (s : LimsState) (i : Nat) (tag : Option String) :
    Except PyError (Option Int) × LimsState :=
  let s₁ := entityGet s i false
  match rootOf s₁ i with
  | Option.none => (.ok Option.none, s₁)
  | some r =>
    match getNode r tag with
    | Option.none => (.ok Option.none, s₁)
    | some n =>
      match n.text with
      | Option.none => (.error (.typeError "int() argument must be a string"), s₁)
      | some txt =>
        match pyParseInt txt with
        | some m => (.ok (some m), s₁)
        | Option.none => (.error .valueError, s₁)

/-- `BooleanDescriptor.__get__`: absent element reads as `None`; present
text compares case-insensitively to `'true'`. -/
def booleanDescGet (s : LimsState) (i : Nat) (tag : Option String) :
    Except PyError (Option Bool) × LimsState :=
  let s₁ := entityGet s i false
  match rootOf s₁ i with
  | Option.none => (.ok Option.none, s₁)
  | some r =>
    match getNode r tag with
    | Option.none => (.ok Option.none, s₁)
    | some n =>
      match n.text with
      | Option.none =>
        (.error (.attributeError "NoneType object has no attribute lower"), s₁)
      | some txt => (.ok (some (pyLower txt == "true")), s₁)

/-! ## One-shot cached descriptors (entities.py lines 293-433)

These three descriptors store their computed value in `self.value`.
`self` is the descriptor object itself — a single instance per field per
entity kind declared in the class body — so the cache is shared by every
entity of that kind.  The cache slot is threaded explicitly here as the
`cached` argument and returned updated. -/

/-- `UdfDictionaryDescriptor.__get__` (and, with `udtMode = true`,
`UdtDictionaryDescriptor.__get__`): return the cached value when present;
otherwise fetch the instance, build the dictionary from its tree, and
cache it.  When construction raises, `self.value` is never assigned. -/
def udfDictionaryDescGet (cached : Option UdfDictionary) (s : LimsState)
    (i : Nat) (udtMode : Bool) :
    Except PyError UdfDictionary × Option UdfDictionary × LimsState :=
  match cached with
  | some v => (.ok v, some v, s)
  | Option.none =>
    let s₁ := entityGet s i false
    match rootOf s₁ i with
    | Option.none => (.error (.attributeError "invalid handle"), Option.none, s₁)
    | some r =>
      match mkUdfDictionary r udtMode with
      | .error e => (.error e, Option.none, s₁)
      | .ok v => (.ok v, some v, s₁)

/-- The loop body of `PlacementDictionaryDescriptor.__get__`: for each
`placement` element, key is the text of its `value` child and the value is
an Artifact handle constructed from the `uri` attribute.  `self.value` is
assigned the empty dict before the loop, so on an error the partially
filled dict stays cached. -/
def placementBuild (s : LimsState) :
    List XTree → List (Option String × Nat) →
    List (Option String × Nat) × LimsState × Option PyError
  | [], acc => (acc, s, Option.none)
  | node :: rest, acc =>
    match node.find "value" with
    | Option.none =>
      (acc, s, some (.attributeError "NoneType object has no attribute text"))
    | some vn =>
      let key := vn.text
      match node.getAttr "uri" with
      | Option.none => (acc, s, some .keyError)
      | some u =>
        let (idx, s₁) := entityConstruct s u
        placementBuild s₁ rest (assocSet acc key idx)

/-- `PlacementDictionaryDescriptor.__get__`. -/
def placementDescGet (cached : Option (List (Option String × Nat)))
    (s : LimsState) (i : Nat) (tag : String) :
    Except PyError (List (Option String × Nat)) ×
      Option (List (Option String × Nat)) × LimsState :=
  match cached with
  | some v => (.ok v, some v, s)
  | Option.none =>
    let s₁ := entityGet s i false
    match rootOf s₁ i with
    | Option.none =>
      (.error (.attributeError "invalid handle"), Option.none, s₁)
    | some r =>
      match placementBuild s₁ (r.findall tag) [] with
      | (v, s₂, some e) => (.error e, some v, s₂)
      | (v, s₂, Option.none) => (.ok v, some v, s₂)

/-- One input/output descriptor of `InputOutputMapList.get_dict`. -/
structure IOMapEntry where
  limsid : Option String
  outputKind : Option String
  outputGenerationKind : Option String
  uriHandle : Option Nat
  postProcessUriHandle : Option Nat
  parentProcess : Option Nat
deriving DecidableEq, Repr

/-- The inner `for uri in ['uri', 'post-process-uri']` loop body of
`get_dict` (it is nested inside the key loop and therefore runs once per
key; constructing the same Artifact again is an identity-map hit, so each
run leaves the same handle). -/
def getDictUris (s : LimsState) (node : XTree) (acc : IOMapEntry) :
    IOMapEntry × LimsState :=
  let (acc, s) :=
    match node.getAttr "uri" with
    | Option.none => (acc, s)
    | some u =>
      let (idx, s') := entityConstruct s u
      ({ acc with uriHandle := some idx }, s')
  match node.getAttr "post-process-uri" with
  | Option.none => (acc, s)
  | some u =>
    let (idx, s') := entityConstruct s u
    ({ acc with postProcessUriHandle := some idx }, s')

/-- `InputOutputMapList.get_dict`: attribute fields are copied when
present; artifact references are constructed from the `uri` /
`post-process-uri` attributes; a `parent-process` child contributes a
constructed Process handle (its missing `uri` attribute raises a
KeyError). -/
def getDict (s : LimsState) (nodeOpt : Option XTree) :
    Except PyError (Option IOMapEntry) × LimsState :=
  match nodeOpt with
  | Option.none => (.ok Option.none, s)
  | some node =>
    let e0 : IOMapEntry :=
      ⟨Option.none, Option.none, Option.none, Option.none, Option.none, Option.none⟩
    let e1 := { e0 with limsid := node.getAttr "limsid" }
    let (e1, s) := getDictUris s node e1
    let e2 := { e1 with outputKind := node.getAttr "output-type" }
    let (e2, s) := getDictUris s node e2
    let e3 := { e2 with outputGenerationKind := node.getAttr "output-generation-type" }
    let (e3, s) := getDictUris s node e3
    match node.find "parent-process" with
    | Option.none => (.ok (some e3), s)
    | some pn =>
      match pn.getAttr "uri" with
      | Option.none => (.error .keyError, s)
      | some u =>
        let (idx, s') := entityConstruct s u
        (.ok (some { e3 with parentProcess := some idx }), s')

/-- The loop of `InputOutputMapList.__get__` over the
`input-output-map` elements.  `self.value` is assigned the empty list
before the loop, so on an error the partial list stays cached. -/
def ioMapBuild (s : LimsState) :
    List XTree → List (Option IOMapEntry × Option IOMapEntry) →
    List (Option IOMapEntry × Option IOMapEntry) × LimsState × Option PyError
  | [], acc => (acc, s, Option.none)
  | node :: rest, acc =>
    match getDict s (node.find "input") with
    | (.error e, s') => (acc, s', some e)
    | (.ok inp, s') =>
      match getDict s' (node.find "output") with
      | (.error e, s'') => (acc, s'', some e)
      | (.ok outp, s'') => ioMapBuild s'' rest (acc ++ [(inp, outp)])

/-- `InputOutputMapList.__get__`. -/
def ioMapDescGet (cached : Option (List (Option IOMapEntry × Option IOMapEntry)))
    (s : LimsState) (i : Nat) :
    Except PyError (List (Option IOMapEntry × Option IOMapEntry)) ×
      Option (List (Option IOMapEntry × Option IOMapEntry)) × LimsState :=
  match cached with
  | some v => (.ok v, some v, s)
  | Option.none =>
    let s₁ := entityGet s i false
    match rootOf s₁ i with
    | Option.none =>
      (.error (.attributeError "invalid handle"), Option.none, s₁)
    | some r =>
      match ioMapBuild s₁ (r.findall "input-output-map") [] with
      | (v, s₂, some e) => (.error e, some v, s₂)
      | (v, s₂, Option.none) => (.ok v, some v, s₂)

/-! ## Paged listing (lims.py `Lims._get_instances`)

The query parameters are fixed for the whole call, so the
`while params.get('start-index') is None` condition is a constant:
`startIndexSet` records whether the caller pinned a page.  `fuel` bounds
the page-following recursion (the chain of next-page links); `none` means
the chain was longer than the fuel. -/

def getInstancesLoop (server : String → XTree) (tag : String) :
    Nat → XTree → Option (Except PyError (List String))
  | 0, _ => Option.none
  | Nat.succ fuel, root =>
    match (root.findall tag).mapM (fun n => n.getAttr "uri") with
    | Option.none => some (.error .keyError)
    | some uris =>
      match root.find "next-page" with
      | Option.none => some (.ok uris)
      | some np =>
        match np.getAttr "uri" with
        | Option.none => some (.error .keyError)
        | some nu =>
          match getInstancesLoop server tag fuel (server nu) with
          | Option.none => Option.none
          | some (.error e) => some (.error e)
          | some (.ok rest) => some (.ok (uris ++ rest))

/-- `Lims._get_instances`: one GET against the listing endpoint, then a
while loop guarded by `params.get('start-index') is None` that collects
the matched element uris of each page and follows `next-page` links.
When `start_index` was passed the guard is false on entry, so the loop
body never runs and the fetched page is discarded. -/
def getInstances (server : String → XTree) (tag : String) (listUri : String)
    (startIndexSet : Bool) (fuel : Nat) : Option (Except PyError (List String)) :=
  let root := server listUri
  if startIndexSet then some (.ok [])
  else getInstancesLoop server tag fuel root

/-! ## Batch loader (lims.py `Lims.get_batch`) -/

/-- The attach loop of `get_batch`: for each fragment of the response,
construct the handle for the fragment's `uri` attribute (an identity-map
hit for a cached uri) and attach the fragment as its backing tree,
overwriting any previous tree. -/
def getBatchLoop (s : LimsState) :
    List XTree → List Nat → Except PyError (List Nat × LimsState)
  | [], acc => .ok (acc, s)
  | node :: rest, acc =>
    match node.getAttr "uri" with
    | Option.none => .error .keyError
    | some u =>
      let (i, s₁) := entityConstruct s u
      let s₂ := setRootAt s₁ i node
      getBatchLoop s₂ rest (acc ++ [i])

/-- `Lims.get_batch`: an empty input list short-circuits to an empty
result without a network call.  Otherwise one POST is issued, whose body
lists every instance's uri; `response` stands for the parsed response
document. -/
def getBatch (s : LimsState) (instances : List Nat) (response : XTree) :
    Except PyError (List Nat × LimsState) :=
  if instances.isEmpty then .ok ([], s)
  else
    let s₁ := { s with postCount := s.postCount + 1 }
    getBatchLoop s₁ response.children []

/-! ## Helper lemmas about the lazy loader -/

theorem entityGet_noop (s : LimsState) (i : Nat) (e : EntityObj)
    (hs : s.store[i]? = some e) (hr : e.root.isSome = true) :
    entityGet s i false = s := by
  unfold entityGet
  rw [hs]
  simp [hr]

theorem entityGet_fetchCount_le (s : LimsState) (i : Nat) :
    (entityGet s i false).fetchCount ≤ s.fetchCount + 1 := by
  unfold entityGet
  cases hs : s.store[i]? with
  | none => exact Nat.le_succ _
  | some e =>
    by_cases hb : e.root.isSome
    · simp [hb]
    · simp [hb]

theorem entityGet_store_isSome (s : LimsState) (i : Nat)
    (hi : i < s.store.length) :
    ∃ e, (entityGet s i false).store[i]? = some e ∧ e.root.isSome = true := by
  have he : s.store[i]? = some s.store[i] := List.getElem?_eq_getElem hi
  unfold entityGet
  rw [he]
  by_cases hb : (s.store[i]).root.isSome
  · simp only [Bool.not_false, Bool.true_and, hb, if_pos]
    exact ⟨s.store[i], he, hb⟩
  · simp only [Bool.not_false, Bool.true_and, hb, if_neg, Bool.false_eq_true,
      not_false_eq_true]
    refine ⟨{ s.store[i] with root := some (s.server (s.store[i]).uri) }, ?_, rfl⟩
    rw [listModify_get_self, he]
    rfl

theorem stringDescGet_snd (s : LimsState) (i : Nat) (tag : Option String) :
    (stringDescGet s i tag).2 = entityGet s i false := by
  unfold stringDescGet
  cases h : rootOf (entityGet s i false) i with
  | none => simp [h]
  | some r =>
    cases h2 : getNode r tag with
    | none => simp [h, h2]
    | some n => simp [h, h2]

/-! ## C1: identity map -/

/-- C1: within one session, two constructions of an entity with the same
resolved uri return the same handle (the same heap index), the second
construction leaves the session state completely unchanged (no
re-initialization, no fetch), and a mutation of the backing tree made
through the first handle is visible through the second. -/
theorem entity_identity_map (s : LimsState) (u : String)
    (hwf : ∀ i, assocGet s.cache u = some i → i < s.store.length) :
    (entityConstruct (entityConstruct s u).2 u).1 = (entityConstruct s u).1 ∧
    (entityConstruct (entityConstruct s u).2 u).2 = (entityConstruct s u).2 ∧
    ∀ t, rootOf (setRootAt (entityConstruct s u).2 (entityConstruct s u).1 t)
          (entityConstruct (entityConstruct s u).2 u).1 = some t := by
  cases h : assocGet s.cache u with
  | some i =>
    have h1 : entityConstruct s u = (i, s) := by
      unfold entityConstruct
      rw [h]
    have hi : i < s.store.length := hwf i h
    have he : s.store[i]? = some s.store[i] := List.getElem?_eq_getElem hi
    refine ⟨by simp [h1], by simp [h1], ?_⟩
    intro t
    rw [h1]
    unfold entityConstruct
    rw [h]
    unfold rootOf setRootAt
    simp only [listModify_get_self, he]
    rfl
  | none =>
    have h1 : entityConstruct s u =
        (s.store.length,
         { s with cache := assocSet s.cache u s.store.length,
                  store := s.store ++ [⟨u, Option.none⟩] }) := by
      unfold entityConstruct
      rw [h]
    have h2 : assocGet (assocSet s.cache u s.store.length) u =
        some s.store.length := assocGet_set_self _ _ _
    have h3 : entityConstruct (entityConstruct s u).2 u =
        (s.store.length, (entityConstruct s u).2) := by
      rw [h1]
      unfold entityConstruct
      simp only [h2]
    refine ⟨by rw [h3, h1], by rw [h3], ?_⟩
    intro t
    rw [h3, h1]
    unfold rootOf setRootAt
    simp only [listModify_get_self, get_concat_length]
    rfl

def treeW : XTree := .mk "r" [] Option.none []

def limsEmptyW : LimsState := ⟨[], [], fun _ => treeW, 0, 0⟩

/-- Witness for C1 on a fresh session and the uri `"u"`. -/
theorem entity_identity_map_witness :
    (entityConstruct (entityConstruct limsEmptyW "u").2 "u").1 =
      (entityConstruct limsEmptyW "u").1 ∧
    (entityConstruct (entityConstruct limsEmptyW "u").2 "u").2 =
      (entityConstruct limsEmptyW "u").2 ∧
    ∀ t, rootOf (setRootAt (entityConstruct limsEmptyW "u").2
          (entityConstruct limsEmptyW "u").1 t)
          (entityConstruct (entityConstruct limsEmptyW "u").2 "u").1 = some t :=
  entity_identity_map limsEmptyW "u"
    (fun i h => by simp [limsEmptyW, assocGet] at h)

/-! ## C6: lazy-load idempotence -/

/-- C6: `get` is a no-op while the backing tree is set and no force is
requested, and an attribute read (modelled by the string projection, which
triggers `get` like every projection) fetches at most once: a second read
on the same entity returns the same value and leaves the state — in
particular the fetch counter — unchanged. -/
theorem lazy_load_idempotent :
    (∀ (s : LimsState) (i : Nat) (e : EntityObj),
       s.store[i]? = some e → e.root.isSome = true → entityGet s i false = s) ∧
    (∀ (s : LimsState) (i : Nat) (tag : Option String), i < s.store.length →
       stringDescGet ((stringDescGet s i tag).2) i tag = stringDescGet s i tag ∧
       ((stringDescGet s i tag).2).fetchCount ≤ s.fetchCount + 1) := by
  constructor
  · exact fun s i e hs hr => entityGet_noop s i e hs hr
  · intro s i tag hi
    obtain ⟨e, he, hr⟩ := entityGet_store_isSome s i hi
    have hsnd : (stringDescGet s i tag).2 = entityGet s i false :=
      stringDescGet_snd s i tag
    have hnoop : entityGet (entityGet s i false) i false =
        entityGet s i false := entityGet_noop _ i e he hr
    constructor
    · rw [hsnd]
      show stringDescGet (entityGet s i false) i tag = stringDescGet s i tag
      unfold stringDescGet
      rw [hnoop]
    · rw [hsnd]
      exact entityGet_fetchCount_le s i

def limsLoadedW : LimsState := ⟨[("u", 0)], [⟨"u", some treeW⟩], fun _ => treeW, 0, 0⟩

def limsUnloadedW : LimsState := ⟨[("u", 0)], [⟨"u", Option.none⟩], fun _ => treeW, 0, 0⟩

/-- Witness for C6: a loaded entity is not re-fetched, and a second
attribute read after a first one changes nothing. -/
theorem lazy_load_idempotent_witness :
    entityGet limsLoadedW 0 false = limsLoadedW ∧
    stringDescGet ((stringDescGet limsUnloadedW 0 (some "name")).2) 0 (some "name") =
      stringDescGet limsUnloadedW 0 (some "name") ∧
    ((stringDescGet limsUnloadedW 0 (some "name")).2).fetchCount ≤
      limsUnloadedW.fetchCount + 1 :=
  ⟨lazy_load_idempotent.1 limsLoadedW 0 ⟨"u", some treeW⟩ rfl rfl,
   (lazy_load_idempotent.2 limsUnloadedW 0 (some "name") (by decide)).1,
   (lazy_load_idempotent.2 limsUnloadedW 0 (some "name") (by decide)).2⟩

/-! ## C7: read tolerates an absent element, write does not -/

/-- C7: for the scalar text, integer and boolean projections, when the
target element is absent from the backing tree a read returns the absent
value `None`, while a write to the same absent element fails with an
AttributeError and leaves the state unchanged. -/
theorem scalar_absent_read_write (s : LimsState) (i : Nat) (e : EntityObj)
    (r : XTree) (tg v : String)
    (hs : s.store[i]? = some e) (hr : e.root = some r) (htg : tg ≠ "")
    (hfind : r.find tg = Option.none) :
    stringDescGet s i (some tg) = (Option.none, s) ∧
    integerDescGet s i (some tg) = (.ok Option.none, s) ∧
    booleanDescGet s i (some tg) = (.ok Option.none, s) ∧
    stringDescSet s i (some tg) v = (s, some (.attributeError "no element to set")) := by
  have hsome : e.root.isSome = true := by rw [hr]; rfl
  have hnoop : entityGet s i false = s := entityGet_noop s i e hs hsome
  have hroot : rootOf s i = some r := by simp [rootOf, hs, hr]
  have hnode : getNode r (some tg) = Option.none := by simp [getNode, htg, hfind]
  refine ⟨?_, ?_, ?_, ?_⟩
  · simp [stringDescGet, hnoop, hroot, hnode]
  · simp [integerDescGet, hnoop, hroot, hnode]
  · simp [booleanDescGet, hnoop, hroot, hnode]
  · simp [stringDescSet, hs, hr, hnode]

def absentTreeW : XTree := .mk "prj" [] Option.none [.mk "other" [] Option.none []]

def limsAbsentW : LimsState :=
  ⟨[("u", 0)], [⟨"u", some absentTreeW⟩], fun _ => treeW, 0, 0⟩

/-- Witness for C7 at a backing tree with no `name` element. -/
theorem scalar_absent_read_write_witness :
    stringDescGet limsAbsentW 0 (some "name") = (Option.none, limsAbsentW) ∧
    integerDescGet limsAbsentW 0 (some "name") = (.ok Option.none, limsAbsentW) ∧
    booleanDescGet limsAbsentW 0 (some "name") = (.ok Option.none, limsAbsentW) ∧
    stringDescSet limsAbsentW 0 (some "name") "x" =
      (limsAbsentW, some (.attributeError "no element to set")) :=
  scalar_absent_read_write limsAbsentW 0 ⟨"u", some absentTreeW⟩ absentTreeW
    "name" "x" rfl rfl (by decide) rfl

/-! ## Helper lemmas about `__setitem__` on an existing element -/

theorem setitem_found (d : UdfDictionary) (key : String) (value : PyVal)
    (i : Nat) (node : XTree) (ty txt : String)
    (hfind : findNamedElem d.root d.udtMode key d.elems = .ok (some (i, node)))
    (hty : node.getAttr "type" = some ty)
    (henc : encodeExisting ty value = .ok txt) :
    d.setitem key value =
      ({ d with lookup := assocSet d.lookup key value,
                root := setChildText d.root d.udtMode i txt }, Option.none) := by
  unfold UdfDictionary.setitem
  simp only [hfind, hty, henc]

theorem setitem_found_err (d : UdfDictionary) (key : String) (value : PyVal)
    (i : Nat) (node : XTree) (ty : String) (e : PyError)
    (hfind : findNamedElem d.root d.udtMode key d.elems = .ok (some (i, node)))
    (hty : node.getAttr "type" = some ty)
    (henc : encodeExisting ty value = .error e) :
    d.setitem key value =
      ({ d with lookup := assocSet d.lookup key value }, some e) := by
  unfold UdfDictionary.setitem
  simp only [hfind, hty, henc]

theorem setitem_getitem (d : UdfDictionary) (k : String) (value : PyVal)
    (i : Nat) (node : XTree) (ty txt : String)
    (hfind : findNamedElem d.root d.udtMode k d.elems = .ok (some (i, node)))
    (hty : node.getAttr "type" = some ty)
    (henc : encodeExisting ty value = .ok txt) :
    (d.setitem k value).2 = Option.none ∧
    (d.setitem k value).1.getitem k = .ok value := by
  have h := setitem_found d k value i node ty txt hfind hty henc
  rw [h]
  exact ⟨rfl, by simp [UdfDictionary.getitem, assocGet_set_self]⟩

/-! ## C9: UDF set/get round trip -/

/-- C9: for each supported type tag, on a dictionary whose element for the
key carries that tag, `set` succeeds and a following `get` returns a value
equal to the one set, for the representative values `"hello"`,
`"multi\nline"`, `42`, `3.14`, `True` and the date 2012-01-02. -/
theorem udf_roundtrip :
    (∀ (d : UdfDictionary) (k : String) (i : Nat) (node : XTree) (ty : String),
       findNamedElem d.root d.udtMode k d.elems = .ok (some (i, node)) →
       node.getAttr "type" = some ty → pyLower ty = "string" →
       (d.setitem k (.str "hello")).2 = Option.none ∧
       (d.setitem k (.str "hello")).1.getitem k = .ok (.str "hello")) ∧
    (∀ (d : UdfDictionary) (k : String) (i : Nat) (node : XTree) (ty : String),
       findNamedElem d.root d.udtMode k d.elems = .ok (some (i, node)) →
       node.getAttr "type" = some ty → pyLower ty = "text" →
       (d.setitem k (.str "multi\nline")).2 = Option.none ∧
       (d.setitem k (.str "multi\nline")).1.getitem k = .ok (.str "multi\nline")) ∧
    (∀ (d : UdfDictionary) (k : String) (i : Nat) (node : XTree) (ty : String),
       findNamedElem d.root d.udtMode k d.elems = .ok (some (i, node)) →
       node.getAttr "type" = some ty → pyLower ty = "numeric" →
       (d.setitem k (.int 42)).2 = Option.none ∧
       (d.setitem k (.int 42)).1.getitem k = .ok (.int 42)) ∧
    (∀ (d : UdfDictionary) (k : String) (i : Nat) (node : XTree) (ty : String),
       findNamedElem d.root d.udtMode k d.elems = .ok (some (i, node)) →
       node.getAttr "type" = some ty → pyLower ty = "numeric" →
       (d.setitem k (.float "3.14")).2 = Option.none ∧
       (d.setitem k (.float "3.14")).1.getitem k = .ok (.float "3.14")) ∧
    (∀ (d : UdfDictionary) (k : String) (i : Nat) (node : XTree) (ty : String),
       findNamedElem d.root d.udtMode k d.elems = .ok (some (i, node)) →
       node.getAttr "type" = some ty → pyLower ty = "boolean" →
       (d.setitem k (.bool true)).2 = Option.none ∧
       (d.setitem k (.bool true)).1.getitem k = .ok (.bool true)) ∧
    (∀ (d : UdfDictionary) (k : String) (i : Nat) (node : XTree) (ty : String),
       findNamedElem d.root d.udtMode k d.elems = .ok (some (i, node)) →
       node.getAttr "type" = some ty → pyLower ty = "date" →
       (d.setitem k (.date 2012 1 2)).2 = Option.none ∧
       (d.setitem k (.date 2012 1 2)).1.getitem k = .ok (.date 2012 1 2)) := by
  refine ⟨?_, ?_, ?_, ?_, ?_, ?_⟩
  · intro d k i node ty hfind hty hl
    exact setitem_getitem d k _ i node ty "hello" hfind hty
      (by simp [encodeExisting, hl])
  · intro d k i node ty hfind hty hl
    exact setitem_getitem d k _ i node ty "multi\nline" hfind hty
      (by simp [encodeExisting, hl])
  · intro d k i node ty hfind hty hl
    exact setitem_getitem d k _ i node ty (pyStr (PyVal.int 42)) hfind hty
      (by simp [encodeExisting, hl])
  · intro d k i node ty hfind hty hl
    exact setitem_getitem d k _ i node ty (pyStr (PyVal.float "3.14")) hfind hty
      (by simp [encodeExisting, hl])
  · intro d k i node ty hfind hty hl
    exact setitem_getitem d k _ i node ty "True" hfind hty
      (by simp [encodeExisting, hl])
  · intro d k i node ty hfind hty hl
    exact setitem_getitem d k _ i node ty
      (pad4 2012 ++ "-" ++ pad2 1 ++ "-" ++ pad2 2) hfind hty
      (by simp [encodeExisting, hl])

def udfFieldW (nm ty : String) : XTree :=
  .mk udfFieldTag [("type", ty), ("name", nm)] Option.none []

def udfTreeW : XTree :=
  .mk "smp" [] Option.none
    [udfFieldW "a" "String", udfFieldW "b" "Text", udfFieldW "c" "Numeric",
     udfFieldW "cc" "Numeric", udfFieldW "e" "Boolean", udfFieldW "f" "Date"]

def exceptGetD : Except PyError UdfDictionary → UdfDictionary → UdfDictionary
  | .ok a, _ => a
  | .error _, dflt => dflt

def udfDictW : UdfDictionary :=
  exceptGetD (mkUdfDictionary udfTreeW false) ⟨udfTreeW, false, [], []⟩

/-- Witness for C9 on a dictionary built from a tree with one field per
type tag. -/
theorem udf_roundtrip_witness :
    ((udfDictW.setitem "a" (.str "hello")).2 = Option.none ∧
     (udfDictW.setitem "a" (.str "hello")).1.getitem "a" = .ok (.str "hello")) ∧
    ((udfDictW.setitem "b" (.str "multi\nline")).2 = Option.none ∧
     (udfDictW.setitem "b" (.str "multi\nline")).1.getitem "b" =
       .ok (.str "multi\nline")) ∧
    ((udfDictW.setitem "c" (.int 42)).2 = Option.none ∧
     (udfDictW.setitem "c" (.int 42)).1.getitem "c" = .ok (.int 42)) ∧
    ((udfDictW.setitem "cc" (.float "3.14")).2 = Option.none ∧
     (udfDictW.setitem "cc" (.float "3.14")).1.getitem "cc" = .ok (.float "3.14")) ∧
    ((udfDictW.setitem "e" (.bool true)).2 = Option.none ∧
     (udfDictW.setitem "e" (.bool true)).1.getitem "e" = .ok (.bool true)) ∧
    ((udfDictW.setitem "f" (.date 2012 1 2)).2 = Option.none ∧
     (udfDictW.setitem "f" (.date 2012 1 2)).1.getitem "f" = .ok (.date 2012 1 2)) :=
  ⟨udf_roundtrip.1 udfDictW "a" 0 (udfFieldW "a" "String") "String" rfl rfl rfl,
   udf_roundtrip.2.1 udfDictW "b" 1 (udfFieldW "b" "Text") "Text" rfl rfl rfl,
   udf_roundtrip.2.2.1 udfDictW "c" 2 (udfFieldW "c" "Numeric") "Numeric" rfl rfl rfl,
   udf_roundtrip.2.2.2.1 udfDictW "cc" 3 (udfFieldW "cc" "Numeric") "Numeric" rfl rfl rfl,
   udf_roundtrip.2.2.2.2.1 udfDictW "e" 4 (udfFieldW "e" "Boolean") "Boolean" rfl rfl rfl,
   udf_roundtrip.2.2.2.2.2 udfDictW "f" 5 (udfFieldW "f" "Date") "Date" rfl rfl rfl⟩

/-! ## C2: UDF type enforcement -/

def numTreeC : XTree := .mk "smp" [] Option.none [udfFieldW "k" "Numeric"]

def numDictC : UdfDictionary :=
  exceptGetD (mkUdfDictionary numTreeC false) ⟨numTreeC, false, [], []⟩

def boolTreeC : XTree := .mk "smp" [] Option.none [udfFieldW "k" "Boolean"]

def boolDictC : UdfDictionary :=
  exceptGetD (mkUdfDictionary boolTreeC false) ⟨boolTreeC, false, [], []⟩

/-- Counterexample to C2: on a dictionary whose entry `k` has stored type
tag `Numeric`, setting `k` to the boolean `True` does NOT fail — the
`isinstance(value, (int, float))` check accepts booleans because Python
`bool` is an `int` subtype — and the element text is silently set to
`'True'`. -/
theorem udf_numeric_accepts_bool_cex :
    (numDictC.setitem "k" (.bool true)).2 = Option.none ∧
    (numDictC.setitem "k" (.bool true)).1.root =
      .mk "smp" [] Option.none
        [.mk udfFieldTag [("type", "Numeric"), ("name", "k")] (some "True") []] :=
  ⟨rfl, rfl⟩

/-- C2 (amended): setting a `Boolean`-tagged entry to an int or float
value fails with a type violation and the backing element is not written
(only the decoded cache, which `__setitem__` updates before validating,
changes); setting a `Numeric`-tagged entry to a boolean is accepted —
booleans count as numeric values in the host language — and is encoded
as `'True'`/`'False'` element text. -/
theorem udf_type_enforcement_amended :
    (∀ (d : UdfDictionary) (k : String) (i : Nat) (node : XTree) (ty : String)
       (n : Int),
       findNamedElem d.root d.udtMode k d.elems = .ok (some (i, node)) →
       node.getAttr "type" = some ty → pyLower ty = "boolean" →
       d.setitem k (.int n) =
         ({ d with lookup := assocSet d.lookup k (.int n) },
          some (.typeError "Boolean UDF requires bool value"))) ∧
    (∀ (d : UdfDictionary) (k : String) (i : Nat) (node : XTree) (ty : String)
       (lit : String),
       findNamedElem d.root d.udtMode k d.elems = .ok (some (i, node)) →
       node.getAttr "type" = some ty → pyLower ty = "boolean" →
       d.setitem k (.float lit) =
         ({ d with lookup := assocSet d.lookup k (.float lit) },
          some (.typeError "Boolean UDF requires bool value"))) ∧
    (∀ (d : UdfDictionary) (k : String) (i : Nat) (node : XTree) (ty : String)
       (b : Bool),
       findNamedElem d.root d.udtMode k d.elems = .ok (some (i, node)) →
       node.getAttr "type" = some ty → pyLower ty = "numeric" →
       d.setitem k (.bool b) =
         ({ d with lookup := assocSet d.lookup k (.bool b),
                   root := setChildText d.root d.udtMode i (pyStr (PyVal.bool b)) },
          Option.none)) := by
  refine ⟨?_, ?_, ?_⟩
  · intro d k i node ty n hfind hty hl
    exact setitem_found_err d k (.int n) i node ty _ hfind hty
      (by simp [encodeExisting, hl])
  · intro d k i node ty lit hfind hty hl
    exact setitem_found_err d k (.float lit) i node ty _ hfind hty
      (by simp [encodeExisting, hl])
  · intro d k i node ty b hfind hty hl
    exact setitem_found d k (.bool b) i node ty (pyStr (PyVal.bool b)) hfind hty
      (by simp [encodeExisting, hl])

/-- Witness for the amended C2 at concrete dictionaries: the
Boolean-tagged entry rejects both the integer 7 and the float 3.14, the
Numeric-tagged entry accepts True. -/
theorem udf_type_enforcement_amended_witness :
    boolDictC.setitem "k" (.int 7) =
      ({ boolDictC with lookup := assocSet boolDictC.lookup "k" (.int 7) },
       some (.typeError "Boolean UDF requires bool value")) ∧
    boolDictC.setitem "k" (.float "3.14") =
      ({ boolDictC with lookup := assocSet boolDictC.lookup "k" (.float "3.14") },
       some (.typeError "Boolean UDF requires bool value")) ∧
    numDictC.setitem "k" (.bool true) =
      ({ numDictC with lookup := assocSet numDictC.lookup "k" (.bool true),
                       root := setChildText numDictC.root numDictC.udtMode 0
                         (pyStr (PyVal.bool true)) },
       Option.none) :=
  ⟨udf_type_enforcement_amended.1 boolDictC "k" 0 (udfFieldW "k" "Boolean")
     "Boolean" 7 rfl rfl rfl,
   udf_type_enforcement_amended.2.1 boolDictC "k" 0 (udfFieldW "k" "Boolean")
     "Boolean" "3.14" rfl rfl rfl,
   udf_type_enforcement_amended.2.2 numDictC "k" 0 (udfFieldW "k" "Numeric")
     "Numeric" true rfl rfl rfl⟩

/-! ## C3: creating a new UDF entry -/

def delTreeC : XTree := .mk "smp" [] Option.none [udfFieldW "x" "String"]

def delDictC : UdfDictionary :=
  exceptGetD (mkUdfDictionary delTreeC false) ⟨delTreeC, false, [], []⟩

/-- C8: deleting an unseen name fails with a KeyError and changes
nothing, as claimed; but deleting a present name is a code bug: the
removal loop reads `self._instance` (the attribute is `self.instance`),
so after the cache entry is removed an AttributeError is raised and the
backing element stays in the tree. -/
theorem udf_delete_attribute_error :
    delDictC.delitem "y" = (delDictC, some .keyError) ∧
    (delDictC.delitem "x").2 =
      some (.attributeError "UdfDictionary object has no attribute _instance") ∧
    (delDictC.delitem "x").1.lookup = [] ∧
    (delDictC.delitem "x").1.root = delTreeC :=
  ⟨rfl, rfl, rfl, rfl⟩

/-! ## C4: paged listing -/

def labPage2C : XTree := .mk "labs" [] Option.none [.mk "lab" [("uri", "u2")] Option.none []]

def labPage1C : XTree :=
  .mk "labs" [] Option.none
    [.mk "lab" [("uri", "u1")] Option.none [],
     .mk "next-page" [("uri", "NEXT")] Option.none []]

def labServerC : String → XTree := fun u => if u = "NEXT" then labPage2C else labPage1C

/-- C4 is a code bug on the pinned-page half: with `start_index` unset the
loop follows the next-page link and accumulates both pages, but with
`start_index` set the `while params.get('start-index') is None` guard is
false on entry, so the fetched page — here containing one lab — is
discarded and the empty list is returned, contradicting the docstring
`start_index: Page to retrieve`. -/
theorem get_instances_start_index_empty :
    getInstances labServerC "lab" "LIST" true 5 = some (.ok []) ∧
    ((labServerC "LIST").findall "lab").length = 1 ∧
    getInstances labServerC "lab" "LIST" false 5 = some (.ok ["u1", "u2"]) :=
  ⟨rfl, rfl, rfl⟩

/-! ## C10: the one-shot projection caches live on the shared descriptor -/

/-- C10: for the UDF/UDT-dictionary, placement-dictionary and
input/output-map projections the computed value is stored in `self.value`
on the descriptor object — one shared instance per field per entity kind —
so once any entity's read has filled the cache, a read through the same
descriptor on any other entity returns the identical cached object and
leaves the session state untouched: the second entity's tree is never
consulted and no fetch is triggered for it.  The first read computes the
value from the reading entity's backing tree. -/
theorem descriptor_cache_shared :
    (∀ (s : LimsState) (i : Nat) (m : Bool) (r : XTree) (v : UdfDictionary),
       rootOf (entityGet s i false) i = some r → mkUdfDictionary r m = .ok v →
       udfDictionaryDescGet Option.none s i m =
         (.ok v, some v, entityGet s i false)) ∧
    (∀ (s : LimsState) (j : Nat) (m : Bool) (v : UdfDictionary),
       udfDictionaryDescGet (some v) s j m = (.ok v, some v, s)) ∧
    (∀ (s : LimsState) (i : Nat) (tag : String) (r : XTree)
       (v : List (Option String × Nat)) (s₂ : LimsState),
       rootOf (entityGet s i false) i = some r →
       placementBuild (entityGet s i false) (r.findall tag) [] =
         (v, s₂, Option.none) →
       placementDescGet Option.none s i tag = (.ok v, some v, s₂)) ∧
    (∀ (s : LimsState) (j : Nat) (tag : String) (v : List (Option String × Nat)),
       placementDescGet (some v) s j tag = (.ok v, some v, s)) ∧
    (∀ (s : LimsState) (i : Nat) (r : XTree)
       (v : List (Option IOMapEntry × Option IOMapEntry)) (s₂ : LimsState),
       rootOf (entityGet s i false) i = some r →
       ioMapBuild (entityGet s i false) (r.findall "input-output-map") [] =
         (v, s₂, Option.none) →
       ioMapDescGet Option.none s i = (.ok v, some v, s₂)) ∧
    (∀ (s : LimsState) (j : Nat)
       (v : List (Option IOMapEntry × Option IOMapEntry)),
       ioMapDescGet (some v) s j = (.ok v, some v, s)) := by
  refine ⟨?_, ?_, ?_, ?_, ?_, ?_⟩
  · intro s i m r v hroot hmk
    simp [udfDictionaryDescGet, hroot, hmk]
  · intro s j m v
    rfl
  · intro s i tag r v s₂ hroot hbuild
    simp [placementDescGet, hroot, hbuild]
  · intro s j tag v
    rfl
  · intro s i r v s₂ hroot hbuild
    simp [ioMapDescGet, hroot, hbuild]
  · intro s j v
    rfl

def richTreeW : XTree :=
  .mk "prc" [] Option.none
    [.mk "placement" [("uri", "au1")] Option.none [.mk "value" [] (some "A:1") []],
     .mk "input-output-map" [] Option.none
       [.mk "input" [("limsid", "in1"), ("uri", "au1")] Option.none [],
        .mk "output" [("limsid", "out1")] Option.none []]]

def lims2W : LimsState :=
  ⟨[("u", 0), ("v", 1)], [⟨"u", some richTreeW⟩, ⟨"v", Option.none⟩],
   fun _ => treeW, 0, 0⟩

def udfVW : UdfDictionary := ⟨richTreeW, false, [], []⟩

def pmVW : List (Option String × Nat) := [(some "A:1", 2)]

def pmS2W : LimsState :=
  ⟨[("u", 0), ("v", 1), ("au1", 2)],
   [⟨"u", some richTreeW⟩, ⟨"v", Option.none⟩, ⟨"au1", Option.none⟩],
   fun _ => treeW, 0, 0⟩

def ioVW : List (Option IOMapEntry × Option IOMapEntry) :=
  [(some ⟨some "in1", Option.none, Option.none, some 2, Option.none, Option.none⟩,
    some ⟨some "out1", Option.none, Option.none, Option.none, Option.none, Option.none⟩)]

/-- Witness for C10: entity 0 fills each cache from its own tree (the
session only gains the artifact handle `au1` constructed along the way);
a read on the distinct, never-loaded entity 1 then returns the identical
cached object with the state unchanged — entity 1's `root` stays `None`
and no fetch happens. -/
theorem descriptor_cache_shared_witness :
    udfDictionaryDescGet Option.none lims2W 0 false =
      (.ok udfVW, some udfVW, lims2W) ∧
    udfDictionaryDescGet (some udfVW) lims2W 1 false =
      (.ok udfVW, some udfVW, lims2W) ∧
    placementDescGet Option.none lims2W 0 "placement" =
      (.ok pmVW, some pmVW, pmS2W) ∧
    placementDescGet (some pmVW) lims2W 1 "placement" =
      (.ok pmVW, some pmVW, lims2W) ∧
    ioMapDescGet Option.none lims2W 0 = (.ok ioVW, some ioVW, pmS2W) ∧
    ioMapDescGet (some ioVW) lims2W 1 = (.ok ioVW, some ioVW, lims2W) :=
  ⟨descriptor_cache_shared.1 lims2W 0 false richTreeW udfVW rfl rfl,
   descriptor_cache_shared.2.1 lims2W 1 false udfVW,
   descriptor_cache_shared.2.2.1 lims2W 0 "placement" richTreeW pmVW pmS2W rfl rfl,
   descriptor_cache_shared.2.2.2.1 lims2W 1 "placement" pmVW,
   descriptor_cache_shared.2.2.2.2.1 lims2W 0 richTreeW ioVW pmS2W rfl rfl,
   descriptor_cache_shared.2.2.2.2.2 lims2W 1 ioVW⟩

/-! ## C5: batch attach — helper lemmas -/

theorem getLast?_cons_eq {α : Type} (a : α) (l : List α) :
    (a :: l).getLast? = some ((l.getLast?).getD a) := by
  induction l generalizing a with
  | nil => rfl
  | cons b t ih => simp [List.getLast?_cons_cons, ih]

theorem mem_of_getLast? {α : Type} {l : List α} {a : α}
    (h : l.getLast? = some a) : a ∈ l := by
  induction l with
  | nil => cases h
  | cons x t ih =>
    rw [getLast?_cons_eq] at h
    cases ht : t.getLast? with
    | none =>
      rw [ht] at h
      simp at h
      simp [h]
    | some b =>
      rw [ht] at h
      simp at h
      subst h
      exact List.mem_cons_of_mem x (ih ht)

/-- The last fragment of a response whose `uri` attribute is `u`. -/
def lastFrag (cs : List XTree) (u : String) : Option XTree :=
  (cs.filter (fun f => decide (f.getAttr "uri" = some u))).getLast?

/-- `instance.root = node` overwrites any previous tree: the root that a
handle with uri `u` ends with after the attach loop. -/
def attachRoot (o : Option XTree) (dflt : Option XTree) : Option XTree :=
  match o with
  | some f => some f
  | Option.none => dflt

theorem lastFrag_cons_match (f : XTree) (cs : List XTree) (u : String)
    (hf : f.getAttr "uri" = some u) :
    lastFrag (f :: cs) u = some ((lastFrag cs u).getD f) := by
  unfold lastFrag
  rw [List.filter_cons_of_pos (by simp [hf]), getLast?_cons_eq]

theorem lastFrag_cons_nomatch (f : XTree) (cs : List XTree) (u : String)
    (hf : ¬ f.getAttr "uri" = some u) :
    lastFrag (f :: cs) u = lastFrag cs u := by
  unfold lastFrag
  rw [List.filter_cons_of_neg (by simp [hf])]

theorem lastFrag_isSome (cs : List XTree) (u : String) (f : XTree)
    (hmem : f ∈ cs) (hf : f.getAttr "uri" = some u) :
    ∃ g, lastFrag cs u = some g := by
  unfold lastFrag
  have hmemf : f ∈ cs.filter (fun f => decide (f.getAttr "uri" = some u)) :=
    List.mem_filter.mpr ⟨hmem, by simp [hf]⟩
  cases hfl : cs.filter (fun f => decide (f.getAttr "uri" = some u)) with
  | nil => rw [hfl] at hmemf; cases hmemf
  | cons x t => rw [getLast?_cons_eq]; exact ⟨_, rfl⟩

theorem lastFrag_mem (cs : List XTree) (u : String) (g : XTree)
    (h : lastFrag cs u = some g) : g ∈ cs ∧ g.getAttr "uri" = some u := by
  unfold lastFrag at h
  have hg := mem_of_getLast? h
  have := List.mem_filter.mp hg
  exact ⟨this.1, of_decide_eq_true this.2⟩

/-- A response fragment is resolvable in state `s`: it carries a `uri`
attribute whose entity is cached, and the identity map points at a heap
slot holding that uri. -/
def fragOk (s : LimsState) (f : XTree) : Prop :=
  ∃ u i e, f.getAttr "uri" = some u ∧ assocGet s.cache u = some i ∧
    s.store[i]? = some e ∧ e.uri = u

/-- A handle was properly constructed in `s`: its heap slot exists and the
identity map maps its uri back to it. -/
def handleOk (s : LimsState) (i : Nat) : Prop :=
  ∃ e, s.store[i]? = some e ∧ assocGet s.cache e.uri = some i

/-- Invariant of the attach loop: it never errors, never touches the
identity map or the round-trip counters, and each properly constructed
handle ends with the last response fragment carrying its uri as its
backing tree (its previous tree when no fragment matches). -/
theorem getBatchLoop_spec (cs : List XTree) (s : LimsState) (acc : List Nat)
    (hfrag : ∀ f ∈ cs, fragOk s f) :
    ∃ res s', getBatchLoop s cs acc = .ok (res, s') ∧
      s'.cache = s.cache ∧ s'.fetchCount = s.fetchCount ∧
      s'.postCount = s.postCount ∧
      ∀ i e, s.store[i]? = some e → assocGet s.cache e.uri = some i →
        s'.store[i]? =
          some { e with root := attachRoot (lastFrag cs e.uri) e.root } := by
  induction cs generalizing s acc with
  | nil =>
    refine ⟨acc, s, rfl, rfl, rfl, rfl, ?_⟩
    intro i e hse hca
    exact hse
  | cons f rest ih =>
    obtain ⟨u, i₀, e₀, hu, hc, hs₀, hue⟩ := hfrag f (List.mem_cons_self f rest)
    have hstep : getBatchLoop s (f :: rest) acc =
        getBatchLoop (setRootAt s i₀ f) rest (acc ++ [i₀]) := by
      simp only [getBatchLoop, hu, entityConstruct, hc]
    have hfrag₂ : ∀ f' ∈ rest, fragOk (setRootAt s i₀ f) f' := by
      intro f' hmem
      obtain ⟨u', i', e', hu', hc', hs', hue'⟩ :=
        hfrag f' (List.mem_cons_of_mem f hmem)
      by_cases hii : i' = i₀
      · subst hii
        refine ⟨u', i', { e' with root := some f }, hu', hc', ?_, hue'⟩
        show (listModify s.store i' _)[i']? = _
        rw [listModify_get_self, hs']
        rfl
      · refine ⟨u', i', e', hu', hc', ?_, hue'⟩
        show (listModify s.store i₀ _)[i']? = _
        rw [listModify_get_ne _ _ _ _ hii]
        exact hs'
    obtain ⟨res, s', hrun, hcache, hfc, hpc, hstore⟩ :=
      ih (setRootAt s i₀ f) (acc ++ [i₀]) hfrag₂
    refine ⟨res, s', by rw [hstep]; exact hrun, hcache, hfc, hpc, ?_⟩
    intro i e hse hca
    by_cases hiu : e.uri = u
    · have hieq : i = i₀ := by
        rw [hiu] at hca
        exact Option.some.inj (hc.symm.trans hca).symm
      subst hieq
      have hs₂ : (setRootAt s i f).store[i]? = some { e with root := some f } := by
        show (listModify s.store i _)[i]? = _
        rw [listModify_get_self, hse]
        rfl
      have hgot := hstore i { e with root := some f } hs₂ hca
      dsimp at hgot
      rw [hiu] at hgot
      rw [hiu, lastFrag_cons_match f rest u hu]
      cases hl : lastFrag rest u with
      | none => rw [hl] at hgot; simpa [attachRoot] using hgot
      | some g => rw [hl] at hgot; simpa [attachRoot] using hgot
    · have hne : i ≠ i₀ := by
        intro heq
        subst heq
        rw [hse] at hs₀
        exact hiu ((Option.some.inj hs₀) ▸ hue)
      have hs₂ : (setRootAt s i₀ f).store[i]? = some e := by
        show (listModify s.store i₀ _)[i]? = _
        rw [listModify_get_ne _ _ _ _ hne]
        exact hse
      have hgot := hstore i e hs₂ hca
      rw [lastFrag_cons_nomatch f rest e.uri
        (by rw [hu]; intro hcon; exact hiu (Option.some.inj hcon).symm)]
      exact hgot

/-- C5: an empty batch input returns an empty result with the session
state (in particular the POST counter) untouched; for a non-empty list of
properly constructed handles whose uris are all covered by the response,
exactly one POST is issued and afterwards every handle's backing tree is
the response fragment whose `uri` attribute equals the handle's uri
(overwriting any previous tree), whatever order the fragments arrive in. -/
theorem batch_attach (s : LimsState) (instances : List Nat) (response : XTree)
    (hne : instances ≠ [])
    (hfrag : ∀ f ∈ response.children, fragOk s f)
    (hinst : ∀ i ∈ instances, handleOk s i)
    (hcover : ∀ i ∈ instances, ∀ e, s.store[i]? = some e →
       ∃ f ∈ response.children, f.getAttr "uri" = some e.uri) :
    getBatch s [] response = .ok ([], s) ∧
    ∃ res s', getBatch s instances response = .ok (res, s') ∧
      s'.postCount = s.postCount + 1 ∧ s'.fetchCount = s.fetchCount ∧
      ∀ i ∈ instances, ∃ e f, s.store[i]? = some e ∧ f ∈ response.children ∧
        f.getAttr "uri" = some e.uri ∧
        s'.store[i]? = some { e with root := some f } := by
  refine ⟨rfl, ?_⟩
  have hiebool : instances.isEmpty = false := by
    cases instances with
    | nil => exact absurd rfl hne
    | cons a t => rfl
  obtain ⟨res, s', hrun, hcache, hfc, hpc, hstore⟩ :=
    getBatchLoop_spec response.children { s with postCount := s.postCount + 1 }
      [] (fun f hf => hfrag f hf)
  refine ⟨res, s', ?_, hpc, hfc, ?_⟩
  · simp only [getBatch, hiebool, Bool.false_eq_true, if_false]
    exact hrun
  · intro i hi
    obtain ⟨e, hse, hca⟩ := hinst i hi
    obtain ⟨f0, hf0mem, hf0uri⟩ := hcover i hi e hse
    obtain ⟨g, hg⟩ := lastFrag_isSome response.children e.uri f0 hf0mem hf0uri
    obtain ⟨hgmem, hguri⟩ := lastFrag_mem response.children e.uri g hg
    have hrooti := hstore i e hse hca
    rw [hg] at hrooti
    refine ⟨e, g, hse, hgmem, hguri, ?_⟩
    simpa [attachRoot] using hrooti

def batchS : LimsState :=
  ⟨[("u1", 0), ("u2", 1)], [⟨"u1", Option.none⟩, ⟨"u2", Option.none⟩],
   fun _ => treeW, 0, 0⟩

def frag1W : XTree :=
  .mk "artifact" [("uri", "u1")] Option.none [.mk "name" [] (some "n1") []]

def frag2W : XTree :=
  .mk "artifact" [("uri", "u2")] Option.none [.mk "name" [] (some "n2") []]

def batchRespW : XTree := .mk "details" [] Option.none [frag2W, frag1W]

/-- Witness for C5: two cached, unloaded handles; the response lists their
fragments in the opposite order; both handles end with their own fragment
attached. -/
theorem batch_attach_witness :
    getBatch batchS [] batchRespW = .ok ([], batchS) ∧
    ∃ res s', getBatch batchS [0, 1] batchRespW = .ok (res, s') ∧
      s'.postCount = batchS.postCount + 1 ∧ s'.fetchCount = batchS.fetchCount ∧
      ∀ i ∈ [0, 1], ∃ e f, batchS.store[i]? = some e ∧ f ∈ batchRespW.children ∧
        f.getAttr "uri" = some e.uri ∧
        s'.store[i]? = some { e with root := some f } := by
  refine batch_attach batchS [0, 1] batchRespW (by simp) ?_ ?_ ?_
  · intro f hf
    simp only [batchRespW, XTree.children, List.mem_cons, List.not_mem_nil,
      or_false] at hf
    rcases hf with rfl | rfl
    · exact ⟨"u2", 1, ⟨"u2", Option.none⟩, rfl, rfl, rfl, rfl⟩
    · exact ⟨"u1", 0, ⟨"u1", Option.none⟩, rfl, rfl, rfl, rfl⟩
  · intro i hi
    simp only [List.mem_cons, List.not_mem_nil, or_false] at hi
    rcases hi with rfl | rfl
    · exact ⟨⟨"u1", Option.none⟩, rfl, rfl⟩
    · exact ⟨⟨"u2", Option.none⟩, rfl, rfl⟩
  · intro i hi e he
    simp only [List.mem_cons, List.not_mem_nil, or_false] at hi
    rcases hi with rfl | rfl
    · simp only [batchS] at he
      cases he
      exact ⟨frag1W, by simp [batchRespW, XTree.children], rfl⟩
    · simp only [batchS] at he
      cases he
      exact ⟨frag2W, by simp [batchRespW, XTree.children], rfl⟩
